import Mathlib

/-!
Verification of the relay pipeline of the lab-terraform repository:
producer-side Pub/Sub publishing (app1-produtora/pubsub_client.py),
consumer-side message validation and dispatch (app2-consumidora/main.py),
SQL statement construction (app2-consumidora/database_client.py) and the
subscriber callback (app2-consumidora/pubsub_subscriber.py).

Python dictionaries decoded from JSON payloads are embedded as the mutual
inductive type JValue/JFields below: a JSON-like value is a string, an
integer, a boolean, null, or an object (an ordered association list of
string keys to values).  This covers exactly the value domain the spec
assigns to envelope payloads (string, integer, boolean, null, nested
mapping); floats and arrays are outside every claim and are omitted.
-/

mutual

/-- A JSON-like value as decoded by json.loads on the consumer side:
string, integer, boolean, null, or object.  Mutual with JFields, the
ordered key-value list of an object. -/
inductive JValue : Type where
  | str (s : String)
  | int (n : Int)
  | bool (b : Bool)
  | null
  | obj (fields : JFields)

/-- The ordered fields of a JSON object / Python dict: a list of
string-keyed members.  Python dicts preserve insertion order. -/
inductive JFields : Type where
  | nil
  | cons (k : String) (v : JValue) (rest : JFields)

end

/-- Dictionary lookup, dict.get(key): the value at the first matching key,
or none when the key is absent. -/
def JFields.get? : JFields → String → Option JValue
  | .nil, _ => none
  | .cons k v rest, key => if k == key then some v else JFields.get? rest key

/-- Python key membership test (key in dict). -/
def JFields.hasKey (fs : JFields) (k : String) : Bool :=
  (fs.get? k).isSome

/-- Python dict.get(key, default): lookup with a default value. -/
def JFields.getD (fs : JFields) (k : String) (d : JValue) : JValue :=
  (fs.get? k).getD d

/-- The fields as a plain association list (used when a decoded dict is
handed to the database client, whose operations walk keys and values). -/
def JFields.toList : JFields → List (String × JValue)
  | .nil => []
  | .cons k v rest => (k, v) :: JFields.toList rest

/-- Python truthiness of a JSON-like value: empty string, zero, False,
None and the empty dict are falsy; everything else is truthy. -/
def JValue.truthy : JValue → Bool
  | .str s => !(s == "")
  | .int n => !(n == 0)
  | .bool b => b
  | .null => false
  | .obj .nil => false
  | .obj (.cons _ _ _) => true

/-- Model of Python str.upper restricted to ASCII letters: lowercase
a-z map to A-Z, every other character is unchanged.  The validator only
ever compares the result against the ASCII words INSERT, UPDATE, DELETE. -/
def pyUpperChar (c : Char) : Char :=
  if 97 ≤ c.toNat ∧ c.toNat ≤ 122 then Char.ofNat (c.toNat - 32) else c

/-- Model of str.upper on a whole string (ASCII case mapping). -/
def pyUpper (s : String) : String :=
  String.mk (s.data.map pyUpperChar)

/-- The expression message_data.get(\x27operation\x27, \x27\x27).upper()
used by MessageProcessor: none models the AttributeError Python raises
when the operation field holds a non-string value. -/
def getOperationUpper (m : JFields) : Option String :=
  match m.getD "operation" (.str "") with
  | .str s => some (pyUpper s)
  | _ => none

/-- The comparison message_data.get(\x27event_type\x27) ==
\x27database_operation\x27: true exactly when the field holds that string. -/
def eventTypeIsDatabaseOperation (m : JFields) : Bool :=
  match m.get? "event_type" with
  | some (.str s) => s == "database_operation"
  | _ => false

/-- The truthiness test not message_data.get(field) used by the
operation-specific validations: true when the field is present and its
value is truthy. -/
def truthyField (m : JFields) (k : String) : Bool :=
  match m.get? k with
  | some v => v.truthy
  | none => false

/-- MessageProcessor._validate_message (app2-consumidora/main.py
lines 121-167), step by step: required fields, event_type discriminator,
operation membership after upper-casing, then the operation-specific
field requirements.  Except.error models the AttributeError raised by
.upper() on a non-string operation value (caught by the caller). -/
def validateMessage (m : JFields) : Except Unit Bool :=
  if !(m.hasKey "operation") then .ok false
  else if !(m.hasKey "table") then .ok false
  else if !(m.hasKey "event_type") then .ok false
  else if !(eventTypeIsDatabaseOperation m) then .ok false
  else
    match getOperationUpper m with
    | none => .error ()
    | some op =>
      if !(op == "INSERT" || op == "UPDATE" || op == "DELETE") then .ok false
      else if op == "INSERT" then .ok (truthyField m "data")
      else if op == "UPDATE" then .ok (truthyField m "data" && truthyField m "where_clause")
      else .ok (truthyField m "where_clause")

/-- One invocation of the database client recorded by the dispatcher:
which method was called and with which (raw) arguments. -/
inductive ExecCall : Type where
  | insert (table : JValue) (data : JValue)
  | update (table : JValue) (data : JValue) (whereC : JValue)
  | delete (table : JValue) (whereC : JValue)

/-- MessageProcessor._execute_database_operation: routes on the operation
string and invokes the corresponding database-client method.  The
environment dbOk decides whether that call succeeds (False also covers
an exception inside the client, which the method catches).  The returned
list is the trace of database-client invocations. -/
def executeDatabaseOperation (dbOk : ExecCall → Bool) (op : String)
    (table data whereC : JValue) : Bool × List ExecCall :=
  if op == "INSERT" then
    let c : ExecCall := .insert table data
    (dbOk c, [c])
  else if op == "UPDATE" then
    let c : ExecCall := .update table data whereC
    (dbOk c, [c])
  else if op == "DELETE" then
    let c : ExecCall := .delete table whereC
    (dbOk c, [c])
  else (false, [])

/-- MessageProcessor.process_message (app2-consumidora/main.py lines
71-119): validate, then extract operation, table, data and where_clause
with their defaults and dispatch.  The boolean is the ack decision
returned to the subscriber (True means ACK); the list is the trace of
database-client invocations.  A validation failure or an exception
(modelled by Except.error) returns False with an empty trace. -/
def processMessage (dbOk : ExecCall → Bool) (m : JFields) : Bool × List ExecCall :=
  match validateMessage m with
  | .error _ => (false, [])
  | .ok false => (false, [])
  | .ok true =>
    match getOperationUpper m with
    | none => (false, [])
    | some op =>
      executeDatabaseOperation dbOk op (m.getD "table" (.str ""))
        (m.getD "data" (.obj .nil)) (m.getD "where_clause" (.obj .nil))

/-- process_message applied to an arbitrary decoded JSON value: when the
payload is not an object, message_data.get raises AttributeError, which
process_message catches, returning False with no database call. -/
def processMessageTop (dbOk : ExecCall → Bool) (v : JValue) : Bool × List ExecCall :=
  match v with
  | .obj fs => processMessage dbOk fs
  | _ => (false, [])

/-!  ## Decimal digits

Model of Python str(n) on integers, shared by the SQL placeholder
builder (f-strings interpolating i+1) and the JSON renderer.  Defined by
the recursion the round-trip proof inverts. -/

/-- The character of a single decimal digit d < 10. -/
def digitChar (d : Nat) : Char := Char.ofNat (48 + d)

/-- Decimal digit characters of a natural number, most significant
first, prepended to acc. -/
def natDigitsAux (n : Nat) (acc : List Char) : List Char :=
  if h : n < 10 then digitChar n :: acc
  else natDigitsAux (n / 10) (digitChar (n % 10) :: acc)
termination_by n
decreasing_by exact Nat.div_lt_self (by omega) (by omega)

/-- Decimal digit characters of a natural number, most significant first. -/
def natDigits (n : Nat) : List Char := natDigitsAux n []

/-- Model of Python str on a natural number. -/
def natStr (n : Nat) : String := String.mk (natDigits n)

/-- Model of Python str on an integer: optional minus sign, then the
decimal digits of the absolute value. -/
def intChars (i : Int) : List Char :=
  if i < 0 then '-' :: natDigits i.natAbs else natDigits i.natAbs

/-!  ## SQL statement construction (app2-consumidora/database_client.py)

insert, update and delete build a query string and a parameter list;
running the statement over the pool is the external store interaction.
Python sep.join(items) is embedded as joinSep. -/

/-- Model of Python sep.join(items). -/
def joinSep (sep : String) : List String → String
  | [] => ""
  | [a] => a
  | a :: rest => a ++ sep ++ joinSep sep rest

/-- One SET or WHERE item k = $n, as built by the f-strings in update
and delete. -/
def eqItem (k : String) (n : Nat) : String :=
  k ++ " = $" ++ natStr n

/-- The placeholder numbers used for the SET clause of update: 1 up to
the number of data columns (enumerate index i plus 1). -/
def updateSetNumbers (data : List (String × JValue)) : List Nat :=
  (List.range data.length).map (· + 1)

/-- The placeholder numbers used for the WHERE clause of update: the
enumerate index i plus 1 plus len(data), so numbering starts after the
last SET parameter. -/
def updateWhereNumbers (data whereM : List (String × JValue)) : List Nat :=
  (List.range whereM.length).map (· + 1 + data.length)

/-- DatabaseClient.insert (database_client.py lines 39-45): column list
from the keys, numbered value placeholders, and the values as bound
parameters. -/
def DatabaseClient.insert (table : String) (data : List (String × JValue)) :
    String × List JValue :=
  let keys := joinSep ", " (data.map Prod.fst)
  let values := joinSep ", " ((List.range data.length).map (fun i => "$" ++ natStr (i + 1)))
  ("INSERT INTO " ++ table ++ " (" ++ keys ++ ") VALUES (" ++ values ++ ")",
   data.map Prod.snd)

/-- DatabaseClient.update (database_client.py lines 47-53): SET clause
from data with placeholders 1..len(data), conjunctive WHERE clause from
the where mapping with placeholders offset by len(data), and the data
values followed by the where values as bound parameters. -/
def DatabaseClient.update (table : String) (data whereM : List (String × JValue)) :
    String × List JValue :=
  let setClause := joinSep ", " (List.zipWith eqItem (data.map Prod.fst) (updateSetNumbers data))
  let whereClause :=
    joinSep " AND " (List.zipWith eqItem (whereM.map Prod.fst) (updateWhereNumbers data whereM))
  ("UPDATE " ++ table ++ " SET " ++ setClause ++ " WHERE " ++ whereClause,
   data.map Prod.snd ++ whereM.map Prod.snd)

/-- DatabaseClient.delete (database_client.py lines 55-60): conjunctive
WHERE clause with placeholders 1..len(where), and the where values as
bound parameters. -/
def DatabaseClient.delete (table : String) (whereM : List (String × JValue)) :
    String × List JValue :=
  let whereClause :=
    joinSep " AND " (List.zipWith eqItem (whereM.map Prod.fst)
      ((List.range whereM.length).map (· + 1)))
  ("DELETE FROM " ++ table ++ " WHERE " ++ whereClause,
   whereM.map Prod.snd)

/-!  ## Durable publisher (app1-produtora/pubsub_client.py)

The broker is modelled as a map from attempt number to the outcome the
corresponding future would deliver: an error message or a broker-assigned
message id. -/

/-- The retry policy object constructed inside _get_result in
_wait_for_publish (pubsub_client.py lines 183-188).  The code builds it
with these constants and never passes it to any call. -/
structure RetryPolicy where
  initial : Nat
  maximum : Nat
  multiplier : Nat
  deadline : Nat

/-- The constants of the retry policy literal in _wait_for_publish. -/
def waitForPublishRetryPolicy : RetryPolicy :=
  { initial := 1, maximum := 60, multiplier := 2, deadline := 300 }

/-- The timeout passed to future.result in _wait_for_publish. -/
def futureResultTimeout : Nat := 30

/-- _wait_for_publish (pubsub_client.py lines 166-198): fetches the
result of the single future produced by the one publish call; broker n
is the outcome of the n-th send attempt, and only attempt 0 is ever
consulted because the constructed retry policy is not applied to the
wait (an error outcome covers both a failed and a timed-out future). -/
def waitForPublish (broker : Nat → Except String String) : Except String String :=
  broker 0

/-- publish_message (pubsub_client.py lines 117-164): serializes, sends
once, awaits that future and re-raises any error to the caller. -/
def publishMessage (broker : Nat → Except String String) : Except String String :=
  waitForPublish broker

/-- Modelled from the spec: the per-attempt backoff delay of the claimed
retry policy, starting at 1 time unit, doubling, capped at 60. -/
def specBackoffDelay : Nat → Nat
  | 0 => 1
  | n + 1 => min 60 (2 * specBackoffDelay n)

/-- Modelled from the spec: the claimed publisher retry loop, which
re-attempts after each transient failure, sleeping the backoff delay,
until an attempt succeeds or the 300-time-unit overall deadline would be
exceeded, in which case it fails with PublishError. -/
def specRetryPublishAux (broker : Nat → Except String String) :
    Nat → Nat → Nat → Except String String
  | 0, _, _ => .error "PublishError"
  | fuel + 1, attempt, elapsed =>
    match broker attempt with
    | .ok msgId => .ok msgId
    | .error _ =>
      let d := specBackoffDelay attempt
      if elapsed + d ≤ 300 then specRetryPublishAux broker fuel (attempt + 1) (elapsed + d)
      else .error "PublishError"

/-- Modelled from the spec: the claimed retry-with-backoff publish.
The fuel 400 exceeds the greatest possible number of attempts within the
300-time-unit deadline (every delay is at least 1). -/
def specRetryPublish (broker : Nat → Except String String) : Except String String :=
  specRetryPublishAux broker 400 0 0

/-- A broker whose first send attempt fails transiently and whose later
attempts succeed: the concrete failing scenario for the retry claim. -/
def brokerFirstAttemptFails : Nat → Except String String :=
  fun n => if n == 0 then .error "UNAVAILABLE" else .ok "msg-retry-1"

/-- The outcome of a batch entry as recorded by publish_batch: the
message id of a successful future, or None when future.result raised. -/
def outcomeToOption : Except String String → Option String
  | .ok msgId => some msgId
  | .error _ => none

/-- publish_batch (pubsub_client.py lines 200-254): all messages are
sent first (one future per entry, in input order), then each future is
awaited independently; a failed entry contributes None and the loop
continues with the next entry. -/
def publishBatch (send : Nat → Except String String) (messages : List JFields) :
    List (Option String) :=
  let futures := (List.range messages.length).map send
  futures.map outcomeToOption

/-!  ## Bounded consumer (app2-consumidora/pubsub_subscriber.py) -/

/-- An acknowledgment decision issued to the broker by the callback. -/
inductive AckDecision : Type where
  | ack
  | nack

/-- The value passed as max_messages to FlowControl in start_consuming
(pubsub_subscriber.py line 58): the literal 10. -/
def flowControlMaxMessages : Nat := 10

/-- The constructor arguments of PubSubSubscriber that could influence
start_consuming (pubsub_subscriber.py lines 21-33): the project and
subscription identifiers. -/
structure SubscriberConfig where
  projectId : String
  subscriptionId : String

/-- The flow-control max_messages value start_consuming passes to the
broker client as a function of the subscriber configuration: the
constant 10, independent of every configuration field. -/
def startConsumingMaxMessages (cfg : SubscriberConfig) : Nat := 10

/-- Modelled from the spec: the flow-control semantics the broker client
(an external collaborator) enforces for the subscription — a delivery is
admitted only while fewer than max_messages deliveries are outstanding,
and an ack/nack decision retires one outstanding delivery.  The state is
the number of outstanding (received, not yet acked/nacked) messages. -/
inductive ConsumerStep (maxMessages : Nat) : Nat → Nat → Prop where
  | deliver (n : Nat) : n < maxMessages → ConsumerStep maxMessages n (n + 1)
  | decide (n : Nat) : 0 < n → ConsumerStep maxMessages (n + 1) n

/-- Modelled from the spec: the outstanding-message counts reachable
from consumer start (no outstanding deliveries) under flow control. -/
inductive ConsumerReachable (maxMessages : Nat) : Nat → Prop where
  | init : ConsumerReachable maxMessages 0
  | step {n m : Nat} : ConsumerReachable maxMessages n →
      ConsumerStep maxMessages n m → ConsumerReachable maxMessages m

/-!  ## Spec-side validation predicates

These definitions follow the words of the specification (section 4.3
validation order and section 3 invariants), for comparison with the
validator embedded from the code. -/

/-- Spec (a): the top-level fields operation, table and event_type are
present. -/
def specRequiredFieldsPresent (m : JFields) : Bool :=
  m.hasKey "operation" && m.hasKey "table" && m.hasKey "event_type"

/-- Spec (b): event_type equals the expected discriminator
database_operation. -/
def specEventTypeOk (m : JFields) : Bool :=
  match m.get? "event_type" with
  | some (.str s) => s == "database_operation"
  | _ => false

/-- Spec (c): operation, compared case-insensitively, is one of INSERT,
UPDATE, DELETE. -/
def specOperationAllowed (m : JFields) : Bool :=
  match m.get? "operation" with
  | some (.str s) =>
    pyUpper s == "INSERT" || pyUpper s == "UPDATE" || pyUpper s == "DELETE"
  | _ => false

/-- Spec section 3: the field is present and holds a non-empty mapping. -/
def presentNonEmptyMapping (m : JFields) (k : String) : Bool :=
  match m.get? k with
  | some (.obj (.cons _ _ _)) => true
  | _ => false

/-- Spec (d): the operation-specific field requirements of section 3
(INSERT needs data, UPDATE needs data and where_clause, DELETE needs
where_clause, each present and non-empty). -/
def specOperationFieldsOk (m : JFields) : Bool :=
  match m.get? "operation" with
  | some (.str s) =>
    let op := pyUpper s
    if op == "INSERT" then presentNonEmptyMapping m "data"
    else if op == "UPDATE" then
      presentNonEmptyMapping m "data" && presentNonEmptyMapping m "where_clause"
    else if op == "DELETE" then presentNonEmptyMapping m "where_clause"
    else true
  | _ => true

/-- The conjunction of the spec validation stages (a) through (d). -/
def specValidEnvelope (m : JFields) : Bool :=
  specRequiredFieldsPresent m && specEventTypeOk m &&
    specOperationAllowed m && specOperationFieldsOk m

/-- The data and where_clause fields, when present, hold mappings (the
typing that section 3 of the spec assigns to those fields). -/
def mappingFieldOk (m : JFields) (k : String) : Bool :=
  match m.get? k with
  | none => true
  | some (.obj _) => true
  | some _ => false

/-- Payload typing hypothesis for the refinement claim: both optional
mapping fields are mappings when present. -/
def WellTypedPayload (m : JFields) : Bool :=
  mappingFieldOk m "data" && mappingFieldOk m "where_clause"

/-!  ## JSON wire codec

Model of the broker payload encoding: json.dumps(data, ensure_ascii=False,
default=str) on the producer side (pubsub_client.py line 132) and
json.loads(message.data.decode(utf-8)) on the consumer side
(pubsub_subscriber.py line 40).  dumps separates items with a comma and
a space and keys from values with a colon and a space, escapes the
double quote, the backslash and control characters below 0x20 (with the
b, t, n, f, r shortcuts, other control characters as a four-digit
lowercase hex escape), and leaves every other character literal since
ensure_ascii is False.  loads accepts whitespace between tokens and the
standard escapes.  Floats and arrays never occur in the envelope domain
and are not modelled. -/

/-- The lowercase hexadecimal digit character for d < 16 (as produced by
the dumps escape for control characters). -/
def hexDigitChar (d : Nat) : Char :=
  if d < 10 then Char.ofNat (48 + d) else Char.ofNat (87 + d)

/-- The dumps escape of one character (ensure_ascii False). -/
def dumpsEscapeChar (c : Char) : List Char :=
  if c = '"' then ['\\', '"']
  else if c = '\\' then ['\\', '\\']
  else if c = Char.ofNat 8 then ['\\', 'b']
  else if c = Char.ofNat 9 then ['\\', 't']
  else if c = Char.ofNat 10 then ['\\', 'n']
  else if c = Char.ofNat 12 then ['\\', 'f']
  else if c = Char.ofNat 13 then ['\\', 'r']
  else if c.toNat < 32 then
    ['\\', 'u', '0', '0', hexDigitChar (c.toNat / 16), hexDigitChar (c.toNat % 16)]
  else [c]

/-- The dumps rendering of a string: quoted, with each character escaped. -/
def dumpsString (s : String) : List Char :=
  '"' :: (s.data.flatMap dumpsEscapeChar ++ ['"'])

mutual

/-- The dumps rendering of a value. -/
def renderJValue : JValue → List Char
  | .str s => dumpsString s
  | .int n => intChars n
  | .bool true => ['t', 'r', 'u', 'e']
  | .bool false => ['f', 'a', 'l', 's', 'e']
  | .null => ['n', 'u', 'l', 'l']
  | .obj fs => '{' :: renderJFieldsFirst fs

/-- The dumps rendering of the members of an object after the opening
brace: empty objects close immediately, the first member is rendered
without a preceding separator. -/
def renderJFieldsFirst : JFields → List Char
  | .nil => ['}']
  | .cons k v rest =>
    dumpsString k ++ ':' :: ' ' :: (renderJValue v ++ renderJFieldsRest rest)

/-- The dumps rendering of the remaining members, each preceded by the
item separator (comma and space), ending with the closing brace. -/
def renderJFieldsRest : JFields → List Char
  | .nil => ['}']
  | .cons k v rest =>
    ',' :: ' ' :: (dumpsString k ++ ':' :: ' ' :: (renderJValue v ++ renderJFieldsRest rest))

end

/-- json.dumps of a value, as a string. -/
def jsonDumps (v : JValue) : String := String.mk (renderJValue v)

/-- JSON whitespace accepted between tokens by loads. -/
def isWsChar (c : Char) : Bool :=
  c == ' ' || c == Char.ofNat 9 || c == Char.ofNat 10 || c == Char.ofNat 13

/-- Drop leading JSON whitespace. -/
def wsDrop : List Char → List Char
  | c :: cs => if isWsChar c then wsDrop cs else c :: cs
  | [] => []

/-- ASCII decimal digit test. -/
def isDigitChar (c : Char) : Bool :=
  48 ≤ c.toNat && c.toNat ≤ 57

/-- Split a leading run of decimal digits from the input. -/
def spanDigits : List Char → List Char × List Char
  | c :: cs =>
    if isDigitChar c then
      let (ds, r) := spanDigits cs
      (c :: ds, r)
    else ([], c :: cs)
  | [] => ([], [])

/-- The natural number denoted by a list of decimal digit characters. -/
def digitsVal (ds : List Char) : Nat :=
  ds.foldl (fun a c => a * 10 + (c.toNat - 48)) 0

/-- The value of one hexadecimal digit character, if it is one. -/
def hexCharVal (c : Char) : Option Nat :=
  if 48 ≤ c.toNat ∧ c.toNat ≤ 57 then some (c.toNat - 48)
  else if 97 ≤ c.toNat ∧ c.toNat ≤ 102 then some (c.toNat - 87)
  else if 65 ≤ c.toNat ∧ c.toNat ≤ 70 then some (c.toNat - 55)
  else none

/-- The value of a four-hex-digit escape body. -/
def hexQuadVal (a b c d : Char) : Option Nat := do
  let va ← hexCharVal a
  let vb ← hexCharVal b
  let vc ← hexCharVal c
  let vd ← hexCharVal d
  pure (((va * 16 + vb) * 16 + vc) * 16 + vd)

/-- The character denoted by a single-character escape, if valid. -/
def unescapeJChar : Char → Option Char
  | '"' => some '"'
  | '\\' => some '\\'
  | '/' => some '/'
  | 'b' => some (Char.ofNat 8)
  | 't' => some (Char.ofNat 9)
  | 'n' => some (Char.ofNat 10)
  | 'f' => some (Char.ofNat 12)
  | 'r' => some (Char.ofNat 13)
  | _ => none

/-- Parse the body of a JSON string after the opening quote, returning
its characters and the input after the closing quote. -/
def parseJStringBody : List Char → Option (List Char × List Char)
  | '"' :: rest => some ([], rest)
  | '\\' :: 'u' :: a :: b :: c :: d :: rest => do
    let n ← hexQuadVal a b c d
    let (cs, r) ← parseJStringBody rest
    pure (Char.ofNat n :: cs, r)
  | '\\' :: e :: rest => do
    let ch ← unescapeJChar e
    let (cs, r) ← parseJStringBody rest
    pure (ch :: cs, r)
  | c :: rest => do
    let (cs, r) ← parseJStringBody rest
    pure (c :: cs, r)
  | [] => none

mutual

/-- Parse one JSON value (loads model, restricted to the envelope value
domain: strings, integers, booleans, null, objects).  The fuel argument
decreases on every recursive call; the top-level entry point supplies
more fuel than the input length, which the round-trip proof shows is
sufficient for every rendered value. -/
def parseJValueAux : Nat → List Char → Option (JValue × List Char)
  | 0, _ => none
  | fuel + 1, cs =>
    match wsDrop cs with
    | 'n' :: 'u' :: 'l' :: 'l' :: r => some (.null, r)
    | 't' :: 'r' :: 'u' :: 'e' :: r => some (.bool true, r)
    | 'f' :: 'a' :: 'l' :: 's' :: 'e' :: r => some (.bool false, r)
    | '"' :: r =>
      match parseJStringBody r with
      | some (cs2, r2) => some (.str (String.mk cs2), r2)
      | none => none
    | '{' :: r =>
      match parseJFieldsAux fuel r with
      | some (fs, r2) => some (.obj fs, r2)
      | none => none
    | '-' :: r =>
      match spanDigits r with
      | ([], _) => none
      | (ds, r2) => some (.int (-(digitsVal ds : Int)), r2)
    | c :: r =>
      if isDigitChar c then
        match spanDigits (c :: r) with
        | (ds, r2) => some (.int (digitsVal ds), r2)
      else none
    | [] => none

/-- Parse the members of a JSON object after the opening brace,
including the closing brace. -/
def parseJFieldsAux : Nat → List Char → Option (JFields × List Char)
  | 0, _ => none
  | fuel + 1, cs =>
    match wsDrop cs with
    | '}' :: r => some (.nil, r)
    | '"' :: r =>
      match parseJStringBody r with
      | none => none
      | some (kcs, r1) =>
        match wsDrop r1 with
        | ':' :: r2 =>
          match parseJValueAux fuel r2 with
          | none => none
          | some (v, r3) =>
            match wsDrop r3 with
            | ',' :: r4 =>
              match parseJFieldsAux fuel r4 with
              | some (fs, r5) => some (.cons (String.mk kcs) v fs, r5)
              | none => none
            | '}' :: r4 => some (.cons (String.mk kcs) v .nil, r4)
            | _ => none
        | _ => none
    | _ => none

end

/-- json.loads of a payload string: parse one value and require that
only whitespace remains. -/
def jsonLoads (s : String) : Option JValue :=
  match parseJValueAux (s.data.length + 1) s.data with
  | some (v, r) => if wsDrop r = [] then some v else none
  | none => none

/-- PubSubSubscriber._callback (pubsub_subscriber.py lines 35-55):
decode the payload, run the processor, then issue exactly one
acknowledgment decision — ack on success, nack on failure, and nack when
decoding raised.  The first component is the sequence of acknowledgment
decisions issued for the delivery; the second is the database-call trace. -/
def subscriberCallback (dbOk : ExecCall → Bool) (payload : String) :
    List AckDecision × List ExecCall :=
  match jsonLoads payload with
  | none => ([.nack], [])
  | some v =>
    match processMessageTop dbOk v with
    | (true, calls) => ([.ack], calls)
    | (false, calls) => ([.nack], calls)

/-- A character list whose head cannot extend a decimal number: empty or
headed by a non-digit.  Every JSON delimiter produced by the renderer
(comma, closing brace, end of input) qualifies. -/
def noDigitHead : List Char → Bool
  | [] => true
  | c :: _ => !(isDigitChar c)

/-- A well-formed INSERT envelope used to instantiate hypotheses of the
validation theorems at a concrete input. -/
def sampleInsertEnvelope : JFields :=
  .cons "event_id" (.str "evt_1")
    (.cons "event_type" (.str "database_operation")
      (.cons "operation" (.str "insert")
        (.cons "table" (.str "users")
          (.cons "data" (.obj (.cons "name" (.str "Ana") .nil)) .nil))))

/-- A DELETE envelope with no where_clause field. -/
def sampleDeleteNoWhere : JFields :=
  .cons "operation" (.str "DELETE")
    (.cons "table" (.str "users")
      (.cons "event_type" (.str "database_operation") .nil))

/-- An INSERT envelope whose data field is the empty mapping. -/
def sampleInsertEmptyData : JFields :=
  .cons "operation" (.str "INSERT")
    (.cons "table" (.str "users")
      (.cons "event_type" (.str "database_operation")
        (.cons "data" (.obj .nil) .nil)))

/-- A two-entry batch whose first send succeeds and second fails. -/
def sampleBatchSend : Nat → Except String String :=
  fun n => if n == 0 then .ok "id-0" else .error "UNAVAILABLE"

/-- Concrete data mapping for the SQL builder witnesses. -/
def sampleData : List (String × JValue) := [("name", .str "Ana"), ("age", .int 30)]

/-- Concrete where mapping for the SQL builder witnesses. -/
def sampleWhere : List (String × JValue) := [("id", .int 1)]

/-!  ## Validator lemmas -/

theorem hasKey_of_get («fs» : JFields) {k : String} {v : JValue}
    (h : «fs».get? k = some v) : «fs».hasKey k = true := by
  simp [JFields.hasKey, h]

theorem validate_missingField {m : JFields}
    (h : m.hasKey "operation" = false ∨ m.hasKey "table" = false ∨
      m.hasKey "event_type" = false) :
    validateMessage m = .ok false := by
  unfold validateMessage
  rcases h with h | h | h <;> simp [h]

theorem validate_badEventType {m : JFields}
    (h : eventTypeIsDatabaseOperation m = false) :
    validateMessage m = .ok false := by
  unfold validateMessage
  simp [h]

theorem truthyField_eq_presentNonEmptyMapping {m : JFields} {k : String}
    (h : mappingFieldOk m k = true) :
    truthyField m k = presentNonEmptyMapping m k := by
  unfold mappingFieldOk at h
  unfold truthyField presentNonEmptyMapping
  cases hg : m.get? k with
  | none => rfl
  | some v =>
    rw [hg] at h
    cases v with
    | obj fields => cases fields <;> rfl
    | str s => exact absurd h (by simp)
    | int n => exact absurd h (by simp)
    | bool b => exact absurd h (by simp)
    | null => exact absurd h (by simp)

theorem processMessage_of_not_valid (dbOk : ExecCall → Bool) {m : JFields}
    (h : validateMessage m ≠ .ok true) :
    processMessage dbOk m = (false, []) := by
  unfold processMessage
  cases hv : validateMessage m with
  | error e => rfl
  | ok b =>
    cases b with
    | false => rfl
    | true => exact absurd hv h

theorem getOperationUpper_of_str {m : JFields} {s : String}
    (hop : m.get? "operation" = some (.str s)) :
    getOperationUpper m = some (pyUpper s) := by
  simp [getOperationUpper, JFields.getD, hop]

theorem validate_refines_spec {m : JFields} (hw : WellTypedPayload m = true) :
    validateMessage m = .ok true ↔ specValidEnvelope m = true := by
  have hwd : mappingFieldOk m "data" = true := by
    have := hw
    unfold WellTypedPayload at this
    exact (Bool.and_eq_true _ _ |>.mp this).1
  have hww : mappingFieldOk m "where_clause" = true := by
    have := hw
    unfold WellTypedPayload at this
    exact (Bool.and_eq_true _ _ |>.mp this).2
  cases hop : m.get? "operation" with
  | none =>
    have h1 : m.hasKey "operation" = false := by simp [JFields.hasKey, hop]
    rw [validate_missingField (Or.inl h1)]
    simp [specValidEnvelope, specRequiredFieldsPresent, h1]
  | some vop =>
    have h1 : m.hasKey "operation" = true := hasKey_of_get m hop
    cases h2 : m.hasKey "table" with
    | false =>
      rw [validate_missingField (Or.inr (Or.inl h2))]
      simp [specValidEnvelope, specRequiredFieldsPresent, h2]
    | true =>
      cases het : m.get? "event_type" with
      | none =>
        have h3 : m.hasKey "event_type" = false := by simp [JFields.hasKey, het]
        rw [validate_missingField (Or.inr (Or.inr h3))]
        simp [specValidEnvelope, specRequiredFieldsPresent, h3]
      | some vet =>
        have h3 : m.hasKey "event_type" = true := hasKey_of_get m het
        have hspecEt : specEventTypeOk m = eventTypeIsDatabaseOperation m := rfl
        cases hetv : eventTypeIsDatabaseOperation m with
        | false =>
          rw [validate_badEventType hetv]
          simp [specValidEnvelope, hspecEt, hetv]
        | true =>
          cases vop with
          | str s =>
            have hgo : getOperationUpper m = some (pyUpper s) :=
              getOperationUpper_of_str hop
            have hval : validateMessage m =
                (if !(pyUpper s == "INSERT" || pyUpper s == "UPDATE" ||
                      pyUpper s == "DELETE") then .ok false
                 else if pyUpper s == "INSERT" then .ok (truthyField m "data")
                 else if pyUpper s == "UPDATE" then
                   .ok (truthyField m "data" && truthyField m "where_clause")
                 else .ok (truthyField m "where_clause")) := by
              unfold validateMessage
              rw [hgo]
              simp [h1, h2, h3, hetv]
            by_cases hI : pyUpper s = "INSERT"
            · rw [hval]
              simp [specValidEnvelope, specRequiredFieldsPresent, h1, h2, h3,
                hspecEt, hetv, specOperationAllowed, specOperationFieldsOk, hop, hI,
                truthyField_eq_presentNonEmptyMapping hwd]
            · by_cases hU : pyUpper s = "UPDATE"
              · rw [hval]
                simp [specValidEnvelope, specRequiredFieldsPresent, h1, h2, h3,
                  hspecEt, hetv, specOperationAllowed, specOperationFieldsOk, hop,
                  hI, hU, truthyField_eq_presentNonEmptyMapping hwd,
                  truthyField_eq_presentNonEmptyMapping hww]
              · by_cases hD : pyUpper s = "DELETE"
                · rw [hval]
                  simp [specValidEnvelope, specRequiredFieldsPresent, h1, h2, h3,
                    hspecEt, hetv, specOperationAllowed, specOperationFieldsOk, hop,
                    hI, hU, hD, truthyField_eq_presentNonEmptyMapping hww]
                · rw [hval]
                  simp [specValidEnvelope, specRequiredFieldsPresent, h1, h2, h3,
                    hspecEt, hetv, specOperationAllowed, specOperationFieldsOk, hop,
                    hI, hU, hD]
          | int n =>
            have hgo : getOperationUpper m = none := by
              simp [getOperationUpper, JFields.getD, hop]
            have hval : validateMessage m = .error () := by
              unfold validateMessage
              rw [hgo]
              simp [h1, h2, h3, hetv]
            rw [hval]
            simp [specValidEnvelope, specOperationAllowed, hop]
          | bool b =>
            have hgo : getOperationUpper m = none := by
              simp [getOperationUpper, JFields.getD, hop]
            have hval : validateMessage m = .error () := by
              unfold validateMessage
              rw [hgo]
              simp [h1, h2, h3, hetv]
            rw [hval]
            simp [specValidEnvelope, specOperationAllowed, hop]
          | null =>
            have hgo : getOperationUpper m = none := by
              simp [getOperationUpper, JFields.getD, hop]
            have hval : validateMessage m = .error () := by
              unfold validateMessage
              rw [hgo]
              simp [h1, h2, h3, hetv]
            rw [hval]
            simp [specValidEnvelope, specOperationAllowed, hop]
          | obj fs2 =>
            have hgo : getOperationUpper m = none := by
              simp [getOperationUpper, JFields.getD, hop]
            have hval : validateMessage m = .error () := by
              unfold validateMessage
              rw [hgo]
              simp [h1, h2, h3, hetv]
            rw [hval]
            simp [specValidEnvelope, specOperationAllowed, hop]

/-- Claim C1: the Processor validates, in order, (a) presence of
operation, table and event_type, (b) the event_type discriminator,
(c) case-insensitive membership of operation in INSERT/UPDATE/DELETE,
(d) the operation-specific field requirements; acceptance coincides with
the spec-side predicate, and any failure yields the failure outcome with
no Executor invocation. -/
theorem c1_validation_order_and_gate (dbOk : ExecCall → Bool) (m : JFields)
    (hw : WellTypedPayload m = true) :
    (validateMessage m = .ok true ↔ specValidEnvelope m = true) ∧
    (validateMessage m ≠ .ok true → processMessage dbOk m = (false, [])) ∧
    (specRequiredFieldsPresent m = false → validateMessage m = .ok false) ∧
    (specRequiredFieldsPresent m = true → specEventTypeOk m = false →
      validateMessage m = .ok false) ∧
    (specRequiredFieldsPresent m = true → specEventTypeOk m = true →
      specOperationAllowed m = false → validateMessage m ≠ .ok true) := by
  refine ⟨validate_refines_spec hw,
    fun h => processMessage_of_not_valid dbOk h, ?_, ?_, ?_⟩
  · intro h
    unfold specRequiredFieldsPresent at h
    rcases Bool.and_eq_false_iff.mp h with h' | h3
    · rcases Bool.and_eq_false_iff.mp h' with h1 | h2
      · exact validate_missingField (Or.inl h1)
      · exact validate_missingField (Or.inr (Or.inl h2))
    · exact validate_missingField (Or.inr (Or.inr h3))
  · intro _ h4
    exact validate_badEventType h4
  · intro _ _ h5 hv
    have hval := (validate_refines_spec hw).mp hv
    simp [specValidEnvelope, h5] at hval

/-- Claim C1, witnessed at a concrete valid INSERT envelope. -/
theorem c1_witness :
    WellTypedPayload sampleInsertEnvelope = true ∧
    (validateMessage sampleInsertEnvelope = .ok true ↔
      specValidEnvelope sampleInsertEnvelope = true) :=
  ⟨by decide,
   (c1_validation_order_and_gate (fun _ => true) sampleInsertEnvelope (by decide)).1⟩

/-- Claim C2: an envelope whose operation upper-cases to DELETE and
whose where_clause is absent or the empty mapping is rejected with the
failure outcome and no database-client invocation. -/
theorem c2_delete_empty_where_rejected (dbOk : ExecCall → Bool) (m : JFields)
    (hop : getOperationUpper m = some "DELETE")
    (hwc : m.get? "where_clause" = none ∨ m.get? "where_clause" = some (.obj .nil)) :
    processMessage dbOk m = (false, []) := by
  apply processMessage_of_not_valid
  have htr : truthyField m "where_clause" = false := by
    rcases hwc with h | h <;> simp [truthyField, h, JValue.truthy]
  cases h1 : m.hasKey "operation" with
  | false => rw [validate_missingField (Or.inl h1)]; simp
  | true =>
    cases h2 : m.hasKey "table" with
    | false => rw [validate_missingField (Or.inr (Or.inl h2))]; simp
    | true =>
      cases h3 : m.hasKey "event_type" with
      | false => rw [validate_missingField (Or.inr (Or.inr h3))]; simp
      | true =>
        cases h4 : eventTypeIsDatabaseOperation m with
        | false => rw [validate_badEventType h4]; simp
        | true =>
          have hval : validateMessage m = .ok (truthyField m "where_clause") := by
            unfold validateMessage
            rw [hop]
            simp [h1, h2, h3, h4]
          rw [hval, htr]
          simp

/-- Claim C2, witnessed at a DELETE envelope lacking where_clause. -/
theorem c2_witness :
    processMessage (fun _ => true) sampleDeleteNoWhere = (false, []) :=
  c2_delete_empty_where_rejected (fun _ => true) sampleDeleteNoWhere rfl (Or.inl rfl)

/-- Claim C3: an envelope whose operation upper-cases to INSERT and
whose data is absent or the empty mapping is rejected with the failure
outcome and no database-client invocation. -/
theorem c3_insert_empty_data_rejected (dbOk : ExecCall → Bool) (m : JFields)
    (hop : getOperationUpper m = some "INSERT")
    (hd : m.get? "data" = none ∨ m.get? "data" = some (.obj .nil)) :
    processMessage dbOk m = (false, []) := by
  apply processMessage_of_not_valid
  have htr : truthyField m "data" = false := by
    rcases hd with h | h <;> simp [truthyField, h, JValue.truthy]
  cases h1 : m.hasKey "operation" with
  | false => rw [validate_missingField (Or.inl h1)]; simp
  | true =>
    cases h2 : m.hasKey "table" with
    | false => rw [validate_missingField (Or.inr (Or.inl h2))]; simp
    | true =>
      cases h3 : m.hasKey "event_type" with
      | false => rw [validate_missingField (Or.inr (Or.inr h3))]; simp
      | true =>
        cases h4 : eventTypeIsDatabaseOperation m with
        | false => rw [validate_badEventType h4]; simp
        | true =>
          have hval : validateMessage m = .ok (truthyField m "data") := by
            unfold validateMessage
            rw [hop]
            simp [h1, h2, h3, h4]
          rw [hval, htr]
          simp

/-- Claim C3, witnessed at an INSERT envelope with an empty data mapping. -/
theorem c3_witness :
    processMessage (fun _ => true) sampleInsertEmptyData = (false, []) :=
  c3_insert_empty_data_rejected (fun _ => true) sampleInsertEmptyData rfl
    (Or.inr rfl)


/-- Claim C4 analysis: publish_message performs a single attempt.  The
retry policy with initial 1, maximum 60, multiplier 2 and deadline 300
is constructed inside _get_result but applied to nothing, so on a broker
whose first send fails transiently the call surfaces the error even
though the claimed backoff loop (modelled from the spec) would succeed
on the second attempt.  The third conjunct shows the code consults only
attempt 0 of any broker. -/
theorem c4_retry_policy_unused :
    publishMessage brokerFirstAttemptFails = .error "UNAVAILABLE" ∧
    specRetryPublish brokerFirstAttemptFails = .ok "msg-retry-1" ∧
    (∀ broker : Nat → Except String String, waitForPublish broker = broker 0) ∧
    waitForPublishRetryPolicy =
      { initial := 1, maximum := 60, multiplier := 2, deadline := 300 } := by
  refine ⟨rfl, ?_, fun _ => rfl, rfl⟩
  rfl

/-- Claim C8: batch publish returns one entry per input message, in
input order; entry i is the message id when send i succeeded and the
null marker when it failed; and entry i depends only on send i, so one
failing send cannot affect another entry. -/
theorem c8_batch_publish (send : Nat → Except String String)
    (messages : List JFields) :
    (publishBatch send messages).length = messages.length ∧
    (∀ i, i < messages.length →
      (publishBatch send messages)[i]? = some (outcomeToOption (send i))) ∧
    (∀ send2 : Nat → Except String String, ∀ i, i < messages.length →
      send2 i = send i →
      (publishBatch send2 messages)[i]? = (publishBatch send messages)[i]?) := by
  refine ⟨by simp [publishBatch], ?_, ?_⟩
  · intro i hi
    simp [publishBatch, List.getElem?_map, List.getElem?_range hi]
  · intro send2 i hi h2
    simp [publishBatch, List.getElem?_map, List.getElem?_range hi, h2]

/-- Claim C8, witnessed on a concrete two-entry batch whose second send
fails: the second entry is the null marker. -/
theorem c8_witness :
    (publishBatch sampleBatchSend [JFields.nil, JFields.nil])[1]? = some none :=
  (c8_batch_publish sampleBatchSend [JFields.nil, JFields.nil]).2.1 1 (by decide)

/-- Claim C9: the subscriber callback issues exactly one acknowledgment
decision per delivered message: ack exactly when decoding succeeded and
processing returned success, nack when processing failed or when the
payload did not decode. -/
theorem c9_single_ack_decision (dbOk : ExecCall → Bool) (payload : String) :
    (subscriberCallback dbOk payload).1.length = 1 ∧
    (subscriberCallback dbOk payload).1 =
      [match jsonLoads payload with
       | none => AckDecision.nack
       | some v => if (processMessageTop dbOk v).1 then .ack else .nack] := by
  unfold subscriberCallback
  cases h : jsonLoads payload with
  | none => exact ⟨rfl, rfl⟩
  | some v =>
    cases hp : processMessageTop dbOk v with
    | mk ok calls =>
      cases ok with
      | true => simp [hp]
      | false => simp [hp]

/-- Claim C10 counterexample to configurability: every subscriber
configuration yields the same flow-control bound 10; there is no
configuration under which start_consuming passes a different
max_messages. -/
theorem c10_counterexample :
    ¬ ∃ cfg : SubscriberConfig, startConsumingMaxMessages cfg ≠ 10 := by
  rintro ⟨cfg, h⟩
  exact h rfl

/-- Claim C10 (amended): under the flow-control semantics configured at
subscription time, the number of outstanding deliveries never exceeds
the configured bound, which is the constant 10 for every subscriber
configuration (the bound is hardcoded, not configurable). -/
theorem c10_flow_control_bound :
    (∀ n : Nat, ConsumerReachable flowControlMaxMessages n →
      n ≤ flowControlMaxMessages) ∧
    (∀ cfg : SubscriberConfig, startConsumingMaxMessages cfg = flowControlMaxMessages) := by
  constructor
  · intro n h
    induction h with
    | init => exact Nat.zero_le _
    | step hr hs ih =>
      cases hs with
      | deliver n hlt => omega
      | decide n hpos => omega
  · intro cfg
    rfl

/-- Claim C10, witnessed: one delivery from the initial state is
reachable and within the bound. -/
theorem c10_witness :
    1 ≤ flowControlMaxMessages :=
  (c10_flow_control_bound).1 1
    (ConsumerReachable.step ConsumerReachable.init
      (ConsumerStep.deliver 0 (by norm_num [flowControlMaxMessages])))

/-!  ## SQL builder lemmas -/

theorem joinSep_mem_split (sep : String) {x : String} :
    ∀ {xs : List String}, x ∈ xs → ∃ p q, joinSep sep xs = p ++ (x ++ q)
  | [], hx => absurd hx (List.not_mem_nil x)
  | [a], hx => by
    rcases List.mem_singleton.mp hx with rfl
    exact ⟨"", "", by simp [joinSep]⟩
  | a :: b :: t, hx => by
    rcases List.mem_cons.mp hx with rfl | hmem
    · exact ⟨"", sep ++ joinSep sep (b :: t), by simp [joinSep, String.append_assoc]⟩
    · obtain ⟨p, q, hpq⟩ := joinSep_mem_split sep hmem
      exact ⟨a ++ sep ++ p, q, by simp [joinSep, hpq, String.append_assoc]⟩

theorem zipWith_eqItem_mem {k : String} :
    ∀ (ks : List String) (ns : List Nat), k ∈ ks → ks.length ≤ ns.length →
      ∃ n, eqItem k n ∈ List.zipWith eqItem ks ns
  | [], _, hk, _ => absurd hk (List.not_mem_nil k)
  | _ :: _, [], _, hlen => by simp at hlen
  | a :: t, n :: ns, hk, hlen => by
    rcases List.mem_cons.mp hk with rfl | hmem
    · exact ⟨n, by simp⟩
    · obtain ⟨n2, hn2⟩ := zipWith_eqItem_mem t ns hmem (by simpa using hlen)
      exact ⟨n2, by simp [hn2]⟩

theorem joinSep_eqItem_split (sep : String) {k : String} (ks : List String)
    (ns : List Nat) (hk : k ∈ ks) (hlen : ks.length ≤ ns.length) :
    ∃ p q, joinSep sep (List.zipWith eqItem ks ns) = p ++ (k ++ q) := by
  obtain ⟨n, hmem⟩ := zipWith_eqItem_mem ks ns hk hlen
  obtain ⟨p, q, hpq⟩ := joinSep_mem_split sep hmem
  refine ⟨p, " = $" ++ natStr n ++ q, ?_⟩
  rw [hpq]
  simp [eqItem, String.append_assoc]

/-- Claim C5: every mapping value is returned as a bound parameter (in
mapping order; update binds the data values then the where values); the
generated SQL text depends only on the table and the mapping keys, never
on the values; and the WHERE placeholder numbers of update all exceed
the SET placeholder numbers, whose range ends at the number of data
columns. -/
theorem c5_parameterized_statements (table : String)
    (d w : List (String × JValue)) (hd : d ≠ []) (hw : w ≠ []) :
    ((DatabaseClient.insert table d).2 = d.map Prod.snd) ∧
    ((DatabaseClient.update table d w).2 = d.map Prod.snd ++ w.map Prod.snd) ∧
    ((DatabaseClient.delete table w).2 = w.map Prod.snd) ∧
    (∀ d2, d2.map Prod.fst = d.map Prod.fst →
      (DatabaseClient.insert table d2).1 = (DatabaseClient.insert table d).1) ∧
    (∀ d2 w2, d2.map Prod.fst = d.map Prod.fst → w2.map Prod.fst = w.map Prod.fst →
      (DatabaseClient.update table d2 w2).1 = (DatabaseClient.update table d w).1) ∧
    (∀ w2, w2.map Prod.fst = w.map Prod.fst →
      (DatabaseClient.delete table w2).1 = (DatabaseClient.delete table w).1) ∧
    (∀ n ∈ updateSetNumbers d, ∀ j ∈ updateWhereNumbers d w, n < j) := by
  refine ⟨rfl, rfl, rfl, ?_, ?_, ?_, ?_⟩
  · intro d2 hk
    have hlen : d2.length = d.length := by
      have := congrArg List.length hk
      simpa using this
    simp only [DatabaseClient.insert, hk, hlen]
  · intro d2 w2 hk hkw
    have hlen : d2.length = d.length := by
      have := congrArg List.length hk
      simpa using this
    have hlenw : w2.length = w.length := by
      have := congrArg List.length hkw
      simpa using this
    simp only [DatabaseClient.update, updateSetNumbers, updateWhereNumbers,
      hk, hkw, hlen, hlenw]
  · intro w2 hkw
    have hlenw : w2.length = w.length := by
      have := congrArg List.length hkw
      simpa using this
    simp only [DatabaseClient.delete, hkw, hlenw]
  · intro n hn j hj
    simp only [updateSetNumbers, List.mem_map, List.mem_range] at hn
    simp only [updateWhereNumbers, List.mem_map, List.mem_range] at hj
    obtain ⟨i, hi, rfl⟩ := hn
    obtain ⟨i2, hi2, rfl⟩ := hj
    omega

/-- Claim C5, witnessed: concrete non-empty mappings bind exactly their
values, in order. -/
theorem c5_witness :
    (DatabaseClient.update "users" sampleData sampleWhere).2 =
      sampleData.map Prod.snd ++ sampleWhere.map Prod.snd :=
  (c5_parameterized_statements "users" sampleData sampleWhere
    (List.cons_ne_nil _ _) (List.cons_ne_nil _ _)).2.1

/-- Claim C6: the table name is interpolated verbatim immediately after
the statement verb, and every mapping key occurs verbatim in the SQL
text, for insert, update and delete alike; only the mapping values are
passed as bound parameters. -/
theorem c6_identifier_interpolation (table : String)
    (d w : List (String × JValue)) :
    (∃ rest, (DatabaseClient.insert table d).1 = "INSERT INTO " ++ table ++ rest) ∧
    (∃ rest, (DatabaseClient.update table d w).1 = "UPDATE " ++ table ++ rest) ∧
    (∃ rest, (DatabaseClient.delete table w).1 = "DELETE FROM " ++ table ++ rest) ∧
    (∀ k ∈ d.map Prod.fst, ∃ p q,
      (DatabaseClient.insert table d).1 = p ++ (k ++ q)) ∧
    (∀ k ∈ d.map Prod.fst ++ w.map Prod.fst, ∃ p q,
      (DatabaseClient.update table d w).1 = p ++ (k ++ q)) ∧
    (∀ k ∈ w.map Prod.fst, ∃ p q,
      (DatabaseClient.delete table w).1 = p ++ (k ++ q)) ∧
    ((DatabaseClient.insert table d).2 = d.map Prod.snd) ∧
    ((DatabaseClient.update table d w).2 = d.map Prod.snd ++ w.map Prod.snd) ∧
    ((DatabaseClient.delete table w).2 = w.map Prod.snd) := by
  refine ⟨?_, ?_, ?_, ?_, ?_, ?_, rfl, rfl, rfl⟩
  · exact ⟨" (" ++ joinSep ", " (d.map Prod.fst) ++ ") VALUES (" ++
      joinSep ", " ((List.range d.length).map (fun i => "$" ++ natStr (i + 1))) ++ ")",
      by simp [DatabaseClient.insert, String.append_assoc]⟩
  · exact ⟨" SET " ++
      joinSep ", " (List.zipWith eqItem (d.map Prod.fst) (updateSetNumbers d)) ++
      " WHERE " ++
      joinSep " AND " (List.zipWith eqItem (w.map Prod.fst) (updateWhereNumbers d w)),
      by simp [DatabaseClient.update, String.append_assoc]⟩
  · exact ⟨" WHERE " ++ joinSep " AND "
      (List.zipWith eqItem (w.map Prod.fst) ((List.range w.length).map (· + 1))),
      by simp [DatabaseClient.delete, String.append_assoc]⟩
  · intro k hk
    obtain ⟨p, q, hpq⟩ := joinSep_mem_split ", " hk
    refine ⟨"INSERT INTO " ++ table ++ " (" ++ p,
      q ++ ") VALUES (" ++
        joinSep ", " ((List.range d.length).map (fun i => "$" ++ natStr (i + 1))) ++ ")", ?_⟩
    simp only [DatabaseClient.insert]
    rw [hpq]
    simp [String.append_assoc]
  · intro k hk
    rcases List.mem_append.mp hk with hmem | hmem
    · obtain ⟨p, q, hpq⟩ := joinSep_eqItem_split ", " (d.map Prod.fst)
        (updateSetNumbers d) hmem (by simp [updateSetNumbers])
      refine ⟨"UPDATE " ++ table ++ " SET " ++ p,
        q ++ " WHERE " ++
          joinSep " AND " (List.zipWith eqItem (w.map Prod.fst) (updateWhereNumbers d w)), ?_⟩
      simp only [DatabaseClient.update]
      rw [hpq]
      simp [String.append_assoc]
    · obtain ⟨p, q, hpq⟩ := joinSep_eqItem_split " AND " (w.map Prod.fst)
        (updateWhereNumbers d w) hmem (by simp [updateWhereNumbers])
      refine ⟨"UPDATE " ++ table ++ " SET " ++
        joinSep ", " (List.zipWith eqItem (d.map Prod.fst) (updateSetNumbers d)) ++
        " WHERE " ++ p, q, ?_⟩
      simp only [DatabaseClient.update]
      rw [hpq]
      simp [String.append_assoc]
  · intro k hk
    obtain ⟨p, q, hpq⟩ := joinSep_eqItem_split " AND " (w.map Prod.fst)
      ((List.range w.length).map (· + 1)) hk (by simp)
    refine ⟨"DELETE FROM " ++ table ++ " WHERE " ++ p, q, ?_⟩
    simp only [DatabaseClient.delete]
    rw [hpq]
    simp [String.append_assoc]

/-- Claim C6, witnessed: the concrete key name occurs verbatim in a
concrete generated insert statement. -/
theorem c6_witness :
    ∃ p q, (DatabaseClient.insert "users" sampleData).1 = p ++ ("name" ++ q) :=
  (c6_identifier_interpolation "users" sampleData sampleWhere).2.2.2.1 "name"
    (by simp [sampleData])

/-!  ## Decimal digit lemmas -/

theorem digitChar_val {d : Nat} (h : d < 10) :
    (digitChar d).toNat = 48 + d ∧ isDigitChar (digitChar d) = true := by
  interval_cases d <;> exact ⟨rfl, rfl⟩

theorem natDigitsAux_step (n : Nat) (acc : List Char) :
    natDigitsAux n acc = if n < 10 then digitChar n :: acc
      else natDigitsAux (n / 10) (digitChar (n % 10) :: acc) := by
  rw [natDigitsAux]
  by_cases h : n < 10 <;> simp [h]

theorem natDigitsAux_acc (n : Nat) : ∀ acc : List Char,
    natDigitsAux n acc = natDigitsAux n [] ++ acc := by
  induction n using Nat.strongRecOn with
  | ind n ih =>
    intro acc
    by_cases h : n < 10
    · rw [natDigitsAux_step n acc, natDigitsAux_step n []]
      simp [h]
    · rw [natDigitsAux_step n acc, natDigitsAux_step n []]
      simp only [if_neg h]
      rw [ih (n / 10) (Nat.div_lt_self (by omega) (by omega)) (digitChar (n % 10) :: acc),
        ih (n / 10) (Nat.div_lt_self (by omega) (by omega)) [digitChar (n % 10)]]
      simp

theorem natDigits_snoc (n : Nat) :
    natDigits n = (if n < 10 then [] else natDigits (n / 10)) ++ [digitChar (n % 10)] := by
  unfold natDigits
  rw [natDigitsAux_step]
  by_cases h : n < 10
  · simp [h, Nat.mod_eq_of_lt h]
  · simp only [if_neg h]
    exact natDigitsAux_acc (n / 10) [digitChar (n % 10)]

theorem natDigits_ne_nil (n : Nat) : natDigits n ≠ [] := by
  rw [natDigits_snoc]
  simp

theorem natDigits_all_digits (n : Nat) : ∀ c ∈ natDigits n, isDigitChar c = true := by
  induction n using Nat.strongRecOn with
  | ind n ih =>
    rw [natDigits_snoc]
    intro c hc
    rcases List.mem_append.mp hc with h1 | h2
    · by_cases h : n < 10
      · simp [h] at h1
      · exact ih (n / 10) (Nat.div_lt_self (by omega) (by omega)) c (by simpa [h] using h1)
    · rw [List.mem_singleton] at h2
      subst h2
      exact (digitChar_val (Nat.mod_lt _ (by omega))).2

theorem digitsVal_natDigits (n : Nat) : digitsVal (natDigits n) = n := by
  induction n using Nat.strongRecOn with
  | ind n ih =>
    rw [natDigits_snoc]
    unfold digitsVal
    rw [List.foldl_append]
    have hmod := (digitChar_val (Nat.mod_lt (x := n) (by omega))).1
    by_cases h : n < 10
    · simp only [if_pos h, List.foldl_nil, List.foldl_cons, hmod]
      omega
    · simp only [if_neg h]
      have hv := ih (n / 10) (Nat.div_lt_self (by omega) (by omega))
      unfold digitsVal at hv
      rw [hv]
      simp only [List.foldl_cons, List.foldl_nil, hmod]
      omega

theorem spanDigits_stop {cs : List Char} (h : noDigitHead cs = true) :
    spanDigits cs = ([], cs) := by
  cases cs with
  | nil => rfl
  | cons c t =>
    have hc : isDigitChar c = false := by
      simpa [noDigitHead] using h
    simp [spanDigits, hc]

theorem spanDigits_run {ds : List Char} (hds : ∀ c ∈ ds, isDigitChar c = true)
    {rest : List Char} (hrest : noDigitHead rest = true) :
    spanDigits (ds ++ rest) = (ds, rest) := by
  induction ds with
  | nil => simpa using spanDigits_stop hrest
  | cons c t ih =>
    have hc : isDigitChar c = true := hds c (List.mem_cons_self c t)
    have ht := ih (fun x hx => hds x (List.mem_cons_of_mem _ hx))
    simp [spanDigits, hc, ht]

theorem digit_head_facts {c : Char} (h : isDigitChar c = true) :
    isWsChar c = false ∧ c ≠ 'n' ∧ c ≠ 't' ∧ c ≠ 'f' ∧ c ≠ '"' ∧ c ≠ '{' ∧
      c ≠ '-' := by
  have hv : 48 ≤ c.toNat ∧ c.toNat ≤ 57 := by
    simpa [isDigitChar] using h
  refine ⟨?_, ?_, ?_, ?_, ?_, ?_, ?_⟩
  · simp only [isWsChar, Bool.or_eq_false_iff, beq_eq_false_iff_ne]
    refine ⟨⟨⟨?_, ?_⟩, ?_⟩, ?_⟩ <;> (intro he; rw [he] at hv; simp at hv)
  all_goals (intro he; rw [he] at hv; simp at hv)

theorem wsDrop_cons {c : Char} (h : isWsChar c = false) (t : List Char) :
    wsDrop (c :: t) = c :: t := by
  simp [wsDrop, h]

theorem hexCharVal_hexDigitChar {d : Nat} (h : d < 16) :
    hexCharVal (hexDigitChar d) = some d := by
  interval_cases d <;> rfl

theorem parseJStringBody_escape (c : Char) (cs : List Char) :
    parseJStringBody (dumpsEscapeChar c ++ cs) =
      (parseJStringBody cs).map (fun p => (c :: p.1, p.2)) := by
  unfold dumpsEscapeChar
  by_cases h1 : c = '"'
  · subst h1
    simp only [if_pos rfl, List.cons_append, List.nil_append]
    cases hp : parseJStringBody cs <;> simp [parseJStringBody, unescapeJChar, hp]
  by_cases h2 : c = '\\'
  · subst h2
    simp only [if_neg h1, if_pos rfl, List.cons_append, List.nil_append]
    cases hp : parseJStringBody cs <;> simp [parseJStringBody, unescapeJChar, hp]
  by_cases h3 : c = Char.ofNat 8
  · subst h3
    simp only [if_neg h1, if_neg h2, if_pos rfl, List.cons_append, List.nil_append]
    cases hp : parseJStringBody cs <;> simp [parseJStringBody, unescapeJChar, hp]
  by_cases h4 : c = Char.ofNat 9
  · subst h4
    simp only [if_neg h1, if_neg h2, if_neg h3, if_pos rfl, List.cons_append,
      List.nil_append]
    cases hp : parseJStringBody cs <;> simp [parseJStringBody, unescapeJChar, hp]
  by_cases h5 : c = Char.ofNat 10
  · subst h5
    simp only [if_neg h1, if_neg h2, if_neg h3, if_neg h4, if_pos rfl,
      List.cons_append, List.nil_append]
    cases hp : parseJStringBody cs <;> simp [parseJStringBody, unescapeJChar, hp]
  by_cases h6 : c = Char.ofNat 12
  · subst h6
    simp only [if_neg h1, if_neg h2, if_neg h3, if_neg h4, if_neg h5, if_pos rfl,
      List.cons_append, List.nil_append]
    cases hp : parseJStringBody cs <;> simp [parseJStringBody, unescapeJChar, hp]
  by_cases h7 : c = Char.ofNat 13
  · subst h7
    simp only [if_neg h1, if_neg h2, if_neg h3, if_neg h4, if_neg h5, if_neg h6,
      if_pos rfl, List.cons_append, List.nil_append]
    cases hp : parseJStringBody cs <;> simp [parseJStringBody, unescapeJChar, hp]
  by_cases h8 : c.toNat < 32
  · simp only [if_neg h1, if_neg h2, if_neg h3, if_neg h4, if_neg h5, if_neg h6,
      if_neg h7, if_pos h8, List.cons_append, List.nil_append]
    have hhi : hexCharVal (hexDigitChar (c.toNat / 16)) = some (c.toNat / 16) :=
      hexCharVal_hexDigitChar (by omega)
    have hlo : hexCharVal (hexDigitChar (c.toNat % 16)) = some (c.toNat % 16) :=
      hexCharVal_hexDigitChar (by omega)
    have harith : c.toNat / 16 * 16 + c.toNat % 16 = c.toNat := by
      omega
    have h0 : hexCharVal '0' = some 0 := rfl
    cases hp : parseJStringBody cs <;>
      simp [parseJStringBody, hexQuadVal, h0, hhi, hlo, harith,
        Char.ofNat_toNat, hp]
  · simp only [if_neg h1, if_neg h2, if_neg h3, if_neg h4, if_neg h5, if_neg h6,
      if_neg h7, if_neg h8, List.cons_append, List.nil_append]
    rw [parseJStringBody.eq_def]
    cases hp : parseJStringBody cs <;> simp [h1, h2, hp]

theorem parseJStringBody_flat (l : List Char) : ∀ cs : List Char,
    parseJStringBody (l.flatMap dumpsEscapeChar ++ ('"' :: cs)) = some (l, cs) := by
  induction l with
  | nil =>
    intro cs
    simp [parseJStringBody]
  | cons c t ih =>
    intro cs
    rw [List.flatMap_cons, List.append_assoc, parseJStringBody_escape, ih]
    rfl

theorem parse_int_chars (n : Int) (f : Nat) (rest : List Char)
    (hrest : noDigitHead rest = true) :
    parseJValueAux (f + 1) (intChars n ++ rest) = some (.int n, rest) := by
  have hspan : spanDigits (natDigits n.natAbs ++ rest) = (natDigits n.natAbs, rest) :=
    spanDigits_run (natDigits_all_digits _) hrest
  obtain ⟨c0, t0, h0⟩ : ∃ c0 t0, natDigits n.natAbs = c0 :: t0 := by
    cases hh : natDigits n.natAbs with
    | nil => exact absurd hh (natDigits_ne_nil _)
    | cons a b => exact ⟨a, b, rfl⟩
  have hc0 : isDigitChar c0 = true :=
    natDigits_all_digits n.natAbs c0 (by rw [h0]; exact List.mem_cons_self c0 t0)
  obtain ⟨hws, hn, ht, hf, hq, hbrace, hminus⟩ := digit_head_facts hc0
  by_cases hneg : n < 0
  · have hshape : intChars n ++ rest = '-' :: (natDigits n.natAbs ++ rest) := by
      simp [intChars, hneg]
    rw [hshape]
    simp only [parseJValueAux]
    rw [wsDrop_cons (by rfl)]
    rw [h0] at hspan ⊢
    simp only [List.cons_append] at hspan ⊢
    simp only [hspan]
    rw [← h0] at hspan ⊢
    simp only [hspan, h0]
    have : -(digitsVal (natDigits n.natAbs) : Int) = n := by
      rw [digitsVal_natDigits]
      omega
    rw [← h0, this]
  · have hshape : intChars n ++ rest = c0 :: (t0 ++ rest) := by
      simp [intChars, hneg, h0]
    have hspan2 : spanDigits (c0 :: (t0 ++ rest)) = (c0 :: t0, rest) := by
      rw [h0] at hspan
      simpa using hspan
    have hdv : (digitsVal (c0 :: t0) : Int) = n := by
      rw [← h0, digitsVal_natDigits]
      omega
    rw [hshape]
    simp only [parseJValueAux]
    rw [wsDrop_cons hws]
    split <;> simp_all [hspan2, hdv]

theorem renderJFieldsRest_nil : renderJFieldsRest .nil = ['}'] := rfl

theorem renderJFieldsRest_cons (k : String) (v : JValue) (t : JFields) :
    renderJFieldsRest (.cons k v t) = ',' :: ' ' :: renderJFieldsFirst (.cons k v t) := rfl

theorem noDigitHead_rest (fs : JFields) (rest : List Char) :
    noDigitHead (renderJFieldsRest fs ++ rest) = true := by
  cases fs <;> rfl

theorem renderJValue_ne_nil (v : JValue) : renderJValue v ≠ [] := by
  cases v with
  | str s => simp [renderJValue, dumpsString]
  | int n =>
    show intChars n ≠ []
    unfold intChars
    by_cases h : n < 0 <;> simp [h, natDigits_ne_nil]
  | bool b => cases b <;> simp [renderJValue]
  | null => simp [renderJValue]
  | obj fs => simp [renderJValue]

theorem dumpsString_length_ge (k : String) : 2 ≤ (dumpsString k).length := by
  simp [dumpsString]

theorem renderJFieldsRest_length_ge (fs : JFields) : 1 ≤ (renderJFieldsRest fs).length := by
  cases fs with
  | nil => simp [renderJFieldsRest]
  | cons k v t => simp [renderJFieldsRest]

theorem renderJFieldsFirst_cons_length (k : String) (v : JValue) (t : JFields) :
    (renderJFieldsFirst (.cons k v t)).length =
      (dumpsString k).length + 2 + (renderJValue v).length +
        (renderJFieldsRest t).length := by
  simp [renderJFieldsFirst]
  omega

theorem parseJValueAux_drop_space (f : Nat) (cs : List Char) :
    parseJValueAux (f + 1) (' ' :: cs) = parseJValueAux (f + 1) cs := by
  simp only [parseJValueAux]
  have h : wsDrop (' ' :: cs) = wsDrop cs := by
    have hw : isWsChar ' ' = true := rfl
    simp [wsDrop, hw]
  rw [h]

theorem parseJFieldsAux_drop_space (f : Nat) (cs : List Char) :
    parseJFieldsAux (f + 1) (' ' :: cs) = parseJFieldsAux (f + 1) cs := by
  simp only [parseJFieldsAux]
  have h : wsDrop (' ' :: cs) = wsDrop cs := by
    have hw : isWsChar ' ' = true := rfl
    simp [wsDrop, hw]
  rw [h]

theorem stringMk_data (k : String) : String.mk k.data = k := rfl

theorem parseJFieldsAux_step (f : Nat) (cs : List Char) :
    parseJFieldsAux (f + 1) cs =
      (match wsDrop cs with
       | '}' :: r => some (.nil, r)
       | '"' :: r =>
         match parseJStringBody r with
         | none => none
         | some (kcs, r1) =>
           match wsDrop r1 with
           | ':' :: r2 =>
             match parseJValueAux f r2 with
             | none => none
             | some (v, r3) =>
               match wsDrop r3 with
               | ',' :: r4 =>
                 match parseJFieldsAux f r4 with
                 | some (fs, r5) => some (.cons (String.mk kcs) v fs, r5)
                 | none => none
               | '}' :: r4 => some (.cons (String.mk kcs) v .nil, r4)
               | _ => none
           | _ => none
       | _ => none) := rfl

mutual

theorem roundtripVal : ∀ (v : JValue) (f : Nat) (rest : List Char),
    (renderJValue v).length ≤ f → noDigitHead rest = true →
    parseJValueAux f (renderJValue v ++ rest) = some (v, rest)
  | .null, f, rest, hf, _ => by
    cases f with
    | zero => simp [renderJValue] at hf
    | succ f1 =>
      show parseJValueAux (f1 + 1) (renderJValue .null ++ rest) = _
      simp [renderJValue, parseJValueAux, wsDrop, isWsChar]
  | .bool true, f, rest, hf, _ => by
    cases f with
    | zero => simp [renderJValue] at hf
    | succ f1 =>
      show parseJValueAux (f1 + 1) (renderJValue (.bool true) ++ rest) = _
      simp [renderJValue, parseJValueAux, wsDrop, isWsChar]
  | .bool false, f, rest, hf, _ => by
    cases f with
    | zero => simp [renderJValue] at hf
    | succ f1 =>
      show parseJValueAux (f1 + 1) (renderJValue (.bool false) ++ rest) = _
      simp [renderJValue, parseJValueAux, wsDrop, isWsChar]
  | .int n, f, rest, hf, hr => by
    cases f with
    | zero =>
      exact absurd (List.length_eq_zero.mp (Nat.le_zero.mp hf)) (renderJValue_ne_nil _)
    | succ f1 => exact parse_int_chars n f1 rest hr
  | .str s, f, rest, hf, _ => by
    cases f with
    | zero =>
      exact absurd (List.length_eq_zero.mp (Nat.le_zero.mp hf)) (renderJValue_ne_nil _)
    | succ f1 =>
      have hb : renderJValue (.str s) ++ rest
          = '"' :: (s.data.flatMap dumpsEscapeChar ++ ('"' :: rest)) := by
        simp [renderJValue, dumpsString]
      rw [hb]
      simp only [parseJValueAux]
      rw [wsDrop_cons (by rfl)]
      simp only [parseJStringBody_flat, stringMk_data]
  | .obj fs, f, rest, hf, _ => by
    cases f with
    | zero =>
      exact absurd (List.length_eq_zero.mp (Nat.le_zero.mp hf)) (renderJValue_ne_nil _)
    | succ f1 =>
      have hlen : (renderJFieldsFirst fs).length ≤ f1 := by
        simp [renderJValue] at hf
        omega
      have hb : renderJValue (.obj fs) ++ rest
          = '{' :: (renderJFieldsFirst fs ++ rest) := by
        simp [renderJValue]
      rw [hb]
      simp only [parseJValueAux]
      rw [wsDrop_cons (by rfl)]
      simp only [roundtripFields fs f1 rest hlen]

theorem roundtripFields : ∀ (fs : JFields) (f : Nat) (rest : List Char),
    (renderJFieldsFirst fs).length ≤ f →
    parseJFieldsAux f (renderJFieldsFirst fs ++ rest) = some (fs, rest)
  | .nil, f, rest, hf => by
    cases f with
    | zero => simp [renderJFieldsFirst] at hf
    | succ f1 =>
      show parseJFieldsAux (f1 + 1) (renderJFieldsFirst .nil ++ rest) = _
      simp [renderJFieldsFirst, parseJFieldsAux, wsDrop, isWsChar]
  | .cons k v t, f, rest, hf => by
    cases f with
    | zero =>
      rw [renderJFieldsFirst_cons_length] at hf
      have := dumpsString_length_ge k
      omega
    | succ f1 =>
      rw [renderJFieldsFirst_cons_length] at hf
      have hds := dumpsString_length_ge k
      have hrt := renderJFieldsRest_length_ge t
      cases f1 with
      | zero => omega
      | succ f2 =>
        have hinput : renderJFieldsFirst (.cons k v t) ++ rest
            = '"' :: (k.data.flatMap dumpsEscapeChar ++
                ('"' :: (':' :: ' ' :: (renderJValue v ++ (renderJFieldsRest t ++ rest))))) := by
          simp [renderJFieldsFirst, dumpsString]
        rw [hinput]
        rw [parseJFieldsAux_step]
        rw [wsDrop_cons (by rfl)]
        simp only [parseJStringBody_flat]
        rw [wsDrop_cons (by rfl)]
        simp only [parseJValueAux_drop_space]
        rw [roundtripVal v (f2 + 1) (renderJFieldsRest t ++ rest)
          (by omega) (noDigitHead_rest t rest)]
        cases t with
        | nil =>
          simp only [renderJFieldsRest_nil, List.cons_append, List.nil_append]
          rw [wsDrop_cons (by rfl)]
          simp [stringMk_data]
        | cons k2 v2 t2 =>
          have hlen2 : (renderJFieldsRest (.cons k2 v2 t2)).length
              = 2 + (renderJFieldsFirst (.cons k2 v2 t2)).length := by
            rw [renderJFieldsRest_cons]
            simp only [List.length_cons]
            omega
          simp only [renderJFieldsRest_cons, List.cons_append]
          rw [wsDrop_cons (by rfl)]
          simp only [parseJFieldsAux_drop_space]
          rw [roundtripFields (.cons k2 v2 t2) (f2 + 1) rest (by omega)]

end

theorem jsonLoads_jsonDumps (v : JValue) : jsonLoads (jsonDumps v) = some v := by
  unfold jsonLoads jsonDumps
  have hdata : (String.mk (renderJValue v)).data = renderJValue v := rfl
  rw [hdata]
  have h := roundtripVal v ((renderJValue v).length + 1) [] (Nat.le_succ _) rfl
  rw [List.append_nil] at h
  simp only [h]
  rfl

/-- Claim C7: serializing an envelope (a JSON object whose field values
are strings, integers, booleans, nulls, or nested mappings of these)
with the producer's dumps and deserializing the payload with the
consumer's loads yields a field-for-field equal envelope. -/
theorem c7_serialize_roundtrip (fields : JFields) :
    jsonLoads (jsonDumps (.obj fields)) = some (.obj fields) :=
  jsonLoads_jsonDumps (.obj fields)
